import Mathlib

/-!
# Slippi netplay selections, command table and savestate store

A shallow embedding of the pieces of `Source/Core/Core/Slippi/SlippiNetplay.h`
and `Source/Core/Core/HW/EXI_DeviceSlippi.h` that carry logic:

* `SlippiPlayerSelections` with `Merge` and `Reset`, and `SlippiMatchInfo.Reset`;
* the command enumeration of `CEXISlippi` and its `payloadSizes` table;
* the savestate containers `activeSavestates` / `availableSavestates`.

Machine integers (`u8`, `u16`, `u32`, `int`, `s32`) are only ever copied, never
computed with, so they are embedded as `Nat` / `Int` without wrap-around.
-/

namespace Slippi

/-! ## SlippiNetplay.h : player selections -/

/-- The class `SlippiPlayerSelections`, one field per data member, in the
order of the header. -/
structure SlippiPlayerSelections where
  characterId : Nat
  characterColor : Nat
  isCharacterSelected : Bool
  stageId : Nat
  isStageSelected : Bool
  matchRules : List Nat
  rngOffset : Nat
  messageId : Int
  deriving DecidableEq, Repr

namespace SlippiPlayerSelections

/-- The method `void Merge(SlippiPlayerSelections &s)`: `this` is the first
argument, the returned value is `this` after the call. The three statements of
the body are kept as three successive updates. -/
def Merge (self s : SlippiPlayerSelections) : SlippiPlayerSelections :=
  let t1 := { self with rngOffset := s.rngOffset }
  let t2 :=
    if s.isStageSelected then
      { t1 with stageId := s.stageId, isStageSelected := true }
    else t1
  let t3 :=
    if s.isCharacterSelected then
      { t2 with
        characterId := s.characterId
        characterColor := s.characterColor
        isCharacterSelected := true
        matchRules := s.matchRules }
    else t2
  t3

/-- The method `void Reset()` of `SlippiPlayerSelections`. -/
def Reset (self : SlippiPlayerSelections) : SlippiPlayerSelections :=
  { self with
    characterId := 0
    characterColor := 0
    isCharacterSelected := false
    stageId := 0
    isStageSelected := false
    rngOffset := 0 }

end SlippiPlayerSelections

/-- The class `SlippiMatchInfo`. -/
structure SlippiMatchInfo where
  localPlayerSelections : SlippiPlayerSelections
  remotePlayerSelections : SlippiPlayerSelections
  deriving DecidableEq, Repr

namespace SlippiMatchInfo

/-- The method `void Reset()` of `SlippiMatchInfo`. -/
def Reset (self : SlippiMatchInfo) : SlippiMatchInfo :=
  { localPlayerSelections := self.localPlayerSelections.Reset
    remotePlayerSelections := self.remotePlayerSelections.Reset }

end SlippiMatchInfo

/-! ## EXI_DeviceSlippi.h : command enumeration and payload sizes -/

namespace CEXISlippi

/-- The constant `ROLLBACK_MAX_FRAMES`, defined as 7 at the top of the header. -/
def ROLLBACK_MAX_FRAMES : Nat := 7

def CMD_UNKNOWN : Nat := 0x0

-- Recording
def CMD_RECEIVE_COMMANDS : Nat := 0x35
def CMD_RECEIVE_GAME_INFO : Nat := 0x36
def CMD_RECEIVE_POST_FRAME_UPDATE : Nat := 0x38
def CMD_RECEIVE_GAME_END : Nat := 0x39
def CMD_FRAME_BOOKEND : Nat := 0x3C
def CMD_MENU_FRAME : Nat := 0x3E

-- Playback
def CMD_PREPARE_REPLAY : Nat := 0x75
def CMD_READ_FRAME : Nat := 0x76
def CMD_GET_LOCATION : Nat := 0x77
def CMD_IS_FILE_READY : Nat := 0x88
def CMD_IS_STOCK_STEAL : Nat := 0x89
def CMD_GET_GECKO_CODES : Nat := 0x8A

-- Online
def CMD_ONLINE_INPUTS : Nat := 0xB0
def CMD_CAPTURE_SAVESTATE : Nat := 0xB1
def CMD_LOAD_SAVESTATE : Nat := 0xB2
def CMD_GET_MATCH_STATE : Nat := 0xB3
def CMD_FIND_OPPONENT : Nat := 0xB4
def CMD_SET_MATCH_SELECTIONS : Nat := 0xB5
def CMD_OPEN_LOGIN : Nat := 0xB6
def CMD_LOGOUT : Nat := 0xB7
def CMD_UPDATE : Nat := 0xB8
def CMD_GET_ONLINE_STATUS : Nat := 0xB9
def CMD_CLEANUP_CONNECTION : Nat := 0xBA
def CMD_SEND_CHAT_MESSAGE : Nat := 0xBB
def CMD_GET_NEW_SEED : Nat := 0xBC
def CMD_REPORT_GAME : Nat := 0xBD
def CMD_SET_MATCH_INFO : Nat := 0xBE

-- Misc
def CMD_LOG_MESSAGE : Nat := 0xD0
def CMD_FILE_LENGTH : Nat := 0xD1
def CMD_FILE_LOAD : Nat := 0xD2
def CMD_GCT_LENGTH : Nat := 0xD3
def CMD_GCT_LOAD : Nat := 0xD4

/-- The enumerators under the comment `// Recording`, the meta command
`CMD_RECEIVE_COMMANDS` apart. -/
def recordOpcodes : List Nat :=
  [CMD_RECEIVE_GAME_INFO, CMD_RECEIVE_POST_FRAME_UPDATE, CMD_RECEIVE_GAME_END,
   CMD_FRAME_BOOKEND, CMD_MENU_FRAME]

/-- The enumerators under the comment `// Playback`. -/
def playbackOpcodes : List Nat :=
  [CMD_PREPARE_REPLAY, CMD_READ_FRAME, CMD_GET_LOCATION, CMD_IS_FILE_READY,
   CMD_IS_STOCK_STEAL, CMD_GET_GECKO_CODES]

/-- The enumerators under the comment `// Online`. -/
def onlineOpcodes : List Nat :=
  [CMD_ONLINE_INPUTS, CMD_CAPTURE_SAVESTATE, CMD_LOAD_SAVESTATE, CMD_GET_MATCH_STATE,
   CMD_FIND_OPPONENT, CMD_SET_MATCH_SELECTIONS, CMD_OPEN_LOGIN, CMD_LOGOUT, CMD_UPDATE,
   CMD_GET_ONLINE_STATUS, CMD_CLEANUP_CONNECTION, CMD_SEND_CHAT_MESSAGE, CMD_GET_NEW_SEED,
   CMD_REPORT_GAME, CMD_SET_MATCH_INFO]

/-- The enumerators under the comment `// Misc`. -/
def miscOpcodes : List Nat :=
  [CMD_LOG_MESSAGE, CMD_FILE_LENGTH, CMD_FILE_LOAD, CMD_GCT_LENGTH, CMD_GCT_LOAD]

/-- The initialiser of `std::unordered_map<u8, u32> payloadSizes`, entry by
entry in the order of the header. -/
def payloadSizes : List (Nat × Nat) :=
  [ (CMD_RECEIVE_COMMANDS, 1),
    (CMD_PREPARE_REPLAY, 0),
    (CMD_READ_FRAME, 4),
    (CMD_IS_STOCK_STEAL, 5),
    (CMD_GET_LOCATION, 6),
    (CMD_IS_FILE_READY, 0),
    (CMD_GET_GECKO_CODES, 0),
    (CMD_ONLINE_INPUTS, 17),
    (CMD_CAPTURE_SAVESTATE, 32),
    (CMD_LOAD_SAVESTATE, 32),
    (CMD_GET_MATCH_STATE, 0),
    (CMD_FIND_OPPONENT, 19),
    (CMD_SET_MATCH_SELECTIONS, 6),
    (CMD_SEND_CHAT_MESSAGE, 2),
    (CMD_OPEN_LOGIN, 0),
    (CMD_LOGOUT, 0),
    (CMD_UPDATE, 0),
    (CMD_GET_ONLINE_STATUS, 0),
    (CMD_CLEANUP_CONNECTION, 0),
    (CMD_GET_NEW_SEED, 0),
    (CMD_REPORT_GAME, 16),
    (CMD_SET_MATCH_INFO, 320),
    (CMD_LOG_MESSAGE, 0xFFFF),
    (CMD_FILE_LENGTH, 0x40),
    (CMD_FILE_LOAD, 0x40),
    (CMD_GCT_LENGTH, 0x0),
    (CMD_GCT_LOAD, 0x4) ]

/-- Looking an opcode up in `payloadSizes` without inserting (`find` / `count`
of the unordered map): the first entry under the key, `none` when the key is
absent. An initialiser list keeps the first of two entries with one key. -/
def payloadSize (op : Nat) : Option Nat :=
  payloadSizes.lookup op

/-- How many entries of the initialiser are written under the opcode. -/
def entryCount (op : Nat) : Nat :=
  (payloadSizes.filter (fun e => e.1 == op)).length

/-- Modelled from the spec: the class `SlippiSavestate` (declared in
`Core/Slippi/SlippiSavestate.h`). A snapshot entry "exclusively owns one
fixed-capacity buffer holding a full simulation-state image for exactly one
frame": `buffer` names the owned buffer, `image` is the state image it holds. -/
structure SlippiSavestate where
  buffer : Nat
  image : Nat
  deriving DecidableEq, Repr

/-- The type `std::map<s32, std::unique_ptr<SlippiSavestate>>`: the entries in
ascending key order, as iteration over an ordered map yields them. -/
abbrev SavestateMap := List (Int × SlippiSavestate)

/-- The lookup `find` of the ordered map. -/
def mapFind (frame : Int) : SavestateMap → Option SlippiSavestate
  | [] => none
  | (k, v) :: rest => if k = frame then some v else mapFind frame rest

/-- The removal `erase(key)` of the ordered map. -/
def mapErase (frame : Int) : SavestateMap → SavestateMap
  | [] => []
  | (k, v) :: rest => if k = frame then rest else (k, v) :: mapErase frame rest

/-- The assignment `m[key] = value` of the ordered map: the entry is placed at
its position in key order, an entry already under the key is overwritten. -/
def mapAssign (frame : Int) (ss : SlippiSavestate) : SavestateMap → SavestateMap
  | [] => [(frame, ss)]
  | (k, v) :: rest =>
    if frame < k then (frame, ss) :: (k, v) :: rest
    else if k = frame then (frame, ss) :: rest
    else (k, v) :: mapAssign frame ss rest

/-- The keys of the ordered map, in iteration order. -/
def mapKeys (m : SavestateMap) : List Int :=
  m.map Prod.fst

/-- The two savestate members of `CEXISlippi`, with a count of the buffers
allocated so far, from which a new buffer takes its name. -/
structure SavestateStore where
  activeSavestates : SavestateMap
  availableSavestates : List SlippiSavestate
  allocated : Nat
  deriving DecidableEq, Repr

/-- The store before any operation: no active entry, an empty idle pool. -/
def emptyStore : SavestateStore :=
  { activeSavestates := [], availableSavestates := [], allocated := 0 }

/-- Modelled from the spec: the bound on the active set, "rollback depth + 1",
with `ROLLBACK_MAX_FRAMES` as the rollback depth. The code that enforces it is
in `EXI_DeviceSlippi.cpp`. -/
def activeCapacity : Nat :=
  ROLLBACK_MAX_FRAMES + 1

/-- Modelled from the spec: the eviction step of `capture` (body of
`handleCaptureSavestate` in `EXI_DeviceSlippi.cpp`), "evict the oldest active
entry to the pool": the first entry of the ordered map leaves the active set
and joins the idle pool. -/
def evictOldest (st : SavestateStore) : SavestateStore :=
  match st.activeSavestates with
  | [] => st
  | (_, ss) :: rest =>
    { st with activeSavestates := rest, availableSavestates := ss :: st.availableSavestates }

/-- Modelled from the spec: the acquisition step of `capture` (body of
`handleCaptureSavestate` in `EXI_DeviceSlippi.cpp`), "take one entry from the
idle pool (allocate a new bounded-size buffer only if the pool is empty and the
active set has not yet reached capacity)". With the pool empty and the active
set at capacity nothing can be acquired. -/
def takeIdle (st : SavestateStore) : Option (SlippiSavestate × SavestateStore) :=
  match st.availableSavestates with
  | ss :: rest => some (ss, { st with availableSavestates := rest })
  | [] =>
    if st.activeSavestates.length < activeCapacity then
      some ({ buffer := st.allocated, image := 0 }, { st with allocated := st.allocated + 1 })
    else none

/-- Modelled from the spec: the filling and insertion step of `capture` (body
of `handleCaptureSavestate` in `EXI_DeviceSlippi.cpp`): an entry is acquired,
"the host's serialize primitive" fills it with the host state `host`, and it is
inserted "under `frame` in the active set". -/
def fillAndInsert (frame : Int) (host : Nat) (st : SavestateStore) : SavestateStore :=
  match takeIdle st with
  | some (ss, st1) =>
    { st1 with activeSavestates := mapAssign frame { ss with image := host } st1.activeSavestates }
  | none => st

/-- Modelled from the spec: the operation `capture(frame)` of the snapshot
rollback store (`handleCaptureSavestate`, whose body is in
`EXI_DeviceSlippi.cpp`). A frame that is already active is replaced in place:
its entry keeps its buffer and takes the new image. Otherwise, "if inserting
would exceed the bound, evict the oldest active entry to the pool first", then
acquire an entry, fill it and insert it. -/
def capture (frame : Int) (host : Nat) (st : SavestateStore) : SavestateStore :=
  match mapFind frame st.activeSavestates with
  | some ss =>
    { st with activeSavestates := mapAssign frame { ss with image := host } st.activeSavestates }
  | none =>
    if activeCapacity ≤ st.activeSavestates.length then fillAndInsert frame host (evictOldest st)
    else fillAndInsert frame host st

/-- Modelled from the spec: the operation `release(frame)` of the snapshot
rollback store (its body is not in the header): "move an active entry back to
the idle pool"; a frame that is not active leaves the store as it is. -/
def release (frame : Int) (st : SavestateStore) : SavestateStore :=
  match mapFind frame st.activeSavestates with
  | some ss =>
    { st with
      activeSavestates := mapErase frame st.activeSavestates
      availableSavestates := ss :: st.availableSavestates }
  | none => st

/-- The invariant of the store: keys strictly ascending, at most
`activeCapacity` active entries. -/
def storeInv (st : SavestateStore) : Prop :=
  (mapKeys st.activeSavestates).Pairwise (· < ·) ∧
  st.activeSavestates.length ≤ activeCapacity

instance (st : SavestateStore) : Decidable (storeInv st) := by
  unfold storeInv
  infer_instance

/-- The operations a caller can apply to the store. -/
inductive StoreOp where
  | capture (frame : Int) (host : Nat)
  | release (frame : Int)
  deriving DecidableEq, Repr

/-- One operation applied to the store. -/
def applyOp (st : SavestateStore) : StoreOp → SavestateStore
  | .capture frame host => capture frame host st
  | .release frame => release frame st

/-- A sequence of operations applied from left to right. -/
def runOps (st : SavestateStore) (ops : List StoreOp) : SavestateStore :=
  ops.foldl applyOp st

end CEXISlippi

/-! ## Theorems : player selections -/

namespace SlippiPlayerSelections

/-- Field by field, what `Merge` leaves in `this`. -/
theorem Merge_fields (s delta : SlippiPlayerSelections) :
    s.Merge delta =
      { characterId := if delta.isCharacterSelected then delta.characterId else s.characterId
        characterColor := if delta.isCharacterSelected then delta.characterColor else s.characterColor
        isCharacterSelected := if delta.isCharacterSelected then true else s.isCharacterSelected
        stageId := if delta.isStageSelected then delta.stageId else s.stageId
        isStageSelected := if delta.isStageSelected then true else s.isStageSelected
        matchRules := if delta.isCharacterSelected then delta.matchRules else s.matchRules
        rngOffset := delta.rngOffset
        messageId := s.messageId } := by
  cases hs : delta.isStageSelected <;> cases hc : delta.isCharacterSelected <;>
    simp [Merge, hs, hc]

/-- C1, the claim as stated, refuted: with both selection flags of the delta
false, `Merge` is not the identity, since it copies the delta's `rngOffset`. -/
theorem Merge_identity_refuted :
    ¬ (∀ s delta : SlippiPlayerSelections,
        delta.isStageSelected = false → delta.isCharacterSelected = false →
        s.Merge delta = s) := by
  intro h
  have h1 := h ⟨0, 0, false, 0, false, [], 0, 0⟩ ⟨0, 0, false, 0, false, [], 1, 0⟩ rfl rfl
  exact absurd h1 (by decide)

/-- C1, amended: with both selection flags of the delta false, `Merge` leaves
every field of `s` but `rngOffset` as it was (characterId, characterColor,
isCharacterSelected, stageId, isStageSelected, matchRules, messageId), sets
`rngOffset` to the delta's, and is therefore the identity on `s` exactly when
the delta carries the `rngOffset` that `s` already has. -/
theorem Merge_unselected (s delta : SlippiPlayerSelections)
    (hStage : delta.isStageSelected = false) (hChar : delta.isCharacterSelected = false) :
    s.Merge delta = { s with rngOffset := delta.rngOffset } ∧
    (s.Merge delta).characterId = s.characterId ∧
    (s.Merge delta).characterColor = s.characterColor ∧
    (s.Merge delta).isCharacterSelected = s.isCharacterSelected ∧
    (s.Merge delta).stageId = s.stageId ∧
    (s.Merge delta).isStageSelected = s.isStageSelected ∧
    (s.Merge delta).matchRules = s.matchRules ∧
    (s.Merge delta).messageId = s.messageId ∧
    (s.Merge delta).rngOffset = delta.rngOffset ∧
    (s.Merge delta = s ↔ delta.rngOffset = s.rngOffset) := by
  have h : s.Merge delta = { s with rngOffset := delta.rngOffset } := by
    simp [Merge, hStage, hChar]
  refine ⟨h, ?_, ?_, ?_, ?_, ?_, ?_, ?_, ?_, ?_⟩ <;> try (rw [h])
  constructor
  · intro e
    have := congrArg SlippiPlayerSelections.rngOffset e
    simpa using this
  · intro e
    cases s
    simp_all

/-- The amended C1 at a concrete pair: a delta without selections and with
another `rngOffset`. -/
theorem Merge_unselected_witness :
    (⟨3, 1, true, 8, true, [4, 0], 5, 2⟩ : SlippiPlayerSelections).Merge
        ⟨9, 9, false, 9, false, [7], 6, 1⟩ =
      ⟨3, 1, true, 8, true, [4, 0], 6, 2⟩ :=
  (Merge_unselected ⟨3, 1, true, 8, true, [4, 0], 5, 2⟩ ⟨9, 9, false, 9, false, [7], 6, 1⟩
    rfl rfl).1

/-- C2: whatever the selection flags of `s` and of the delta, after `Merge`
the `rngOffset` of `s` is the delta's. -/
theorem Merge_rngOffset (s delta : SlippiPlayerSelections) :
    (s.Merge delta).rngOffset = delta.rngOffset := by
  rw [Merge_fields]

/-- C3: after `Merge`, a delta with the stage flag set gives `s` its `stageId`
and sets the stage flag; a delta with the stage flag clear leaves `stageId` and
the stage flag of `s` as they were; and two deltas that agree on `stageId` and
`isStageSelected` give the same stage fields, whatever their character flag. -/
theorem Merge_stage (s delta : SlippiPlayerSelections) :
    (delta.isStageSelected = true →
      (s.Merge delta).stageId = delta.stageId ∧ (s.Merge delta).isStageSelected = true) ∧
    (delta.isStageSelected = false →
      (s.Merge delta).stageId = s.stageId ∧
      (s.Merge delta).isStageSelected = s.isStageSelected) ∧
    (∀ delta2 : SlippiPlayerSelections,
      delta2.stageId = delta.stageId → delta2.isStageSelected = delta.isStageSelected →
      (s.Merge delta2).stageId = (s.Merge delta).stageId ∧
      (s.Merge delta2).isStageSelected = (s.Merge delta).isStageSelected) := by
  refine ⟨?_, ?_, ?_⟩
  · intro h
    simp [Merge_fields, h]
  · intro h
    simp [Merge_fields, h]
  · intro delta2 h1 h2
    simp [Merge_fields, h1, h2]

/-- C3 at concrete values: a stage delta overwrites, a delta without stage
leaves the stage fields, and flipping the character flag changes neither. -/
theorem Merge_stage_witness :
    ((⟨3, 1, false, 8, false, [], 5, 2⟩ : SlippiPlayerSelections).Merge
        ⟨9, 9, false, 31, true, [7], 6, 1⟩).stageId = 31 ∧
    ((⟨3, 1, false, 8, false, [], 5, 2⟩ : SlippiPlayerSelections).Merge
        ⟨9, 9, true, 31, true, [7], 6, 1⟩).stageId =
      ((⟨3, 1, false, 8, false, [], 5, 2⟩ : SlippiPlayerSelections).Merge
        ⟨9, 9, false, 31, true, [7], 6, 1⟩).stageId :=
  ⟨((Merge_stage ⟨3, 1, false, 8, false, [], 5, 2⟩ ⟨9, 9, false, 31, true, [7], 6, 1⟩).1 rfl).1,
   ((Merge_stage ⟨3, 1, false, 8, false, [], 5, 2⟩ ⟨9, 9, false, 31, true, [7], 6, 1⟩).2.2
      ⟨9, 9, true, 31, true, [7], 6, 1⟩ rfl rfl).1⟩

/-- C4: after `Merge`, a delta with the character flag set gives `s` its
`characterId`, `characterColor` and `matchRules` and sets the character flag; a
delta with the character flag clear leaves those three fields and the character
flag of `s` as they were; and two deltas that agree on the four character
fields give the same character fields and `matchRules`, whatever their stage
flag. -/
theorem Merge_character (s delta : SlippiPlayerSelections) :
    (delta.isCharacterSelected = true →
      (s.Merge delta).characterId = delta.characterId ∧
      (s.Merge delta).characterColor = delta.characterColor ∧
      (s.Merge delta).matchRules = delta.matchRules ∧
      (s.Merge delta).isCharacterSelected = true) ∧
    (delta.isCharacterSelected = false →
      (s.Merge delta).characterId = s.characterId ∧
      (s.Merge delta).characterColor = s.characterColor ∧
      (s.Merge delta).matchRules = s.matchRules ∧
      (s.Merge delta).isCharacterSelected = s.isCharacterSelected) ∧
    (∀ delta2 : SlippiPlayerSelections,
      delta2.characterId = delta.characterId → delta2.characterColor = delta.characterColor →
      delta2.matchRules = delta.matchRules →
      delta2.isCharacterSelected = delta.isCharacterSelected →
      (s.Merge delta2).characterId = (s.Merge delta).characterId ∧
      (s.Merge delta2).characterColor = (s.Merge delta).characterColor ∧
      (s.Merge delta2).matchRules = (s.Merge delta).matchRules ∧
      (s.Merge delta2).isCharacterSelected = (s.Merge delta).isCharacterSelected) := by
  refine ⟨?_, ?_, ?_⟩
  · intro h
    simp [Merge_fields, h]
  · intro h
    simp [Merge_fields, h]
  · intro delta2 h1 h2 h3 h4
    simp [Merge_fields, h1, h2, h3, h4]

/-- C4 at concrete values: a character delta overwrites id, colour and rules;
a stage-only delta leaves the rules of `s`. -/
theorem Merge_character_witness :
    ((⟨3, 1, false, 8, false, [4], 5, 2⟩ : SlippiPlayerSelections).Merge
        ⟨9, 2, true, 31, false, [7, 7], 6, 1⟩).matchRules = [7, 7] ∧
    ((⟨3, 1, false, 8, false, [4], 5, 2⟩ : SlippiPlayerSelections).Merge
        ⟨9, 2, false, 31, true, [7, 7], 6, 1⟩).matchRules = [4] :=
  ⟨((Merge_character ⟨3, 1, false, 8, false, [4], 5, 2⟩
      ⟨9, 2, true, 31, false, [7, 7], 6, 1⟩).1 rfl).2.2.1,
   ((Merge_character ⟨3, 1, false, 8, false, [4], 5, 2⟩
      ⟨9, 2, false, 31, true, [7, 7], 6, 1⟩).2.1 rfl).2.2.1⟩

/-- C9: `Merge` is associative as a fold of deltas, on all eight fields:
merging `a` and then `b` into `s` equals merging into `s` the one delta got by
merging `b` into `a`; and merging one delta twice equals merging it once. -/
theorem Merge_assoc (s a b d : SlippiPlayerSelections) :
    (s.Merge a).Merge b = s.Merge (a.Merge b) ∧ (s.Merge d).Merge d = s.Merge d := by
  constructor
  · cases hs : b.isStageSelected <;> cases hc : b.isCharacterSelected <;>
      cases hs2 : a.isStageSelected <;> cases hc2 : a.isCharacterSelected <;>
      simp [Merge, hs, hc, hs2, hc2]
  · cases hs : d.isStageSelected <;> cases hc : d.isCharacterSelected <;>
      simp [Merge, hs, hc]

/-- C10: `Reset` leaves `matchRules` and `messageId` of `s` as they were and
sets `rngOffset` to 0; `Merge` leaves `messageId` of `s` as it was and a
selection flag of `s` that was true is still true afterwards. -/
theorem Reset_Merge_frame (s delta : SlippiPlayerSelections) :
    s.Reset.matchRules = s.matchRules ∧
    s.Reset.messageId = s.messageId ∧
    s.Reset.rngOffset = 0 ∧
    (s.Merge delta).messageId = s.messageId ∧
    (s.isStageSelected = true → (s.Merge delta).isStageSelected = true) ∧
    (s.isCharacterSelected = true → (s.Merge delta).isCharacterSelected = true) := by
  refine ⟨rfl, rfl, rfl, ?_, ?_, ?_⟩
  · rw [Merge_fields]
  · intro h
    simp [Merge_fields, h]
  · intro h
    simp [Merge_fields, h]

/-- C10 at concrete values: flags that are set survive a delta without
selections. -/
theorem Reset_Merge_frame_witness :
    ((⟨3, 1, true, 8, true, [4], 5, 2⟩ : SlippiPlayerSelections).Merge
        ⟨0, 0, false, 0, false, [], 6, 1⟩).isStageSelected = true ∧
    ((⟨3, 1, true, 8, true, [4], 5, 2⟩ : SlippiPlayerSelections).Merge
        ⟨0, 0, false, 0, false, [], 6, 1⟩).isCharacterSelected = true :=
  ⟨(Reset_Merge_frame ⟨3, 1, true, 8, true, [4], 5, 2⟩ ⟨0, 0, false, 0, false, [], 6, 1⟩).2.2.2.2.1
      rfl,
   (Reset_Merge_frame ⟨3, 1, true, 8, true, [4], 5, 2⟩ ⟨0, 0, false, 0, false, [], 6, 1⟩).2.2.2.2.2
      rfl⟩

end SlippiPlayerSelections

/-- C5: after `SlippiPlayerSelections::Reset` both selection flags are false
and `characterId`, `characterColor` and `stageId` are 0; and one call of
`SlippiMatchInfo::Reset` establishes this for the local and for the remote
selections, each being the `Reset` of what it was. -/
theorem Reset_clears (s : SlippiPlayerSelections) (m : SlippiMatchInfo) :
    (s.Reset.isCharacterSelected = false ∧ s.Reset.isStageSelected = false ∧
      s.Reset.characterId = 0 ∧ s.Reset.characterColor = 0 ∧ s.Reset.stageId = 0) ∧
    (m.Reset.localPlayerSelections = m.localPlayerSelections.Reset ∧
      m.Reset.remotePlayerSelections = m.remotePlayerSelections.Reset) ∧
    (m.Reset.localPlayerSelections.isCharacterSelected = false ∧
      m.Reset.localPlayerSelections.isStageSelected = false ∧
      m.Reset.localPlayerSelections.characterId = 0 ∧
      m.Reset.localPlayerSelections.characterColor = 0 ∧
      m.Reset.localPlayerSelections.stageId = 0) ∧
    (m.Reset.remotePlayerSelections.isCharacterSelected = false ∧
      m.Reset.remotePlayerSelections.isStageSelected = false ∧
      m.Reset.remotePlayerSelections.characterId = 0 ∧
      m.Reset.remotePlayerSelections.characterColor = 0 ∧
      m.Reset.remotePlayerSelections.stageId = 0) :=
  ⟨⟨rfl, rfl, rfl, rfl, rfl⟩, ⟨rfl, rfl⟩, ⟨rfl, rfl, rfl, rfl, rfl⟩, ⟨rfl, rfl, rfl, rfl, rfl⟩⟩

/-! ## Theorems : command table -/

namespace CEXISlippi

/-- A key that is written in no entry is not found and counts no entry. -/
theorem lookup_eq_none_of_not_mem (l : List (Nat × Nat)) (a : Nat)
    (h : a ∉ l.map Prod.fst) :
    l.lookup a = none ∧ (l.filter (fun e => e.1 == a)).length = 0 := by
  induction l with
  | nil => simp [List.lookup]
  | cons e rest ih =>
    obtain ⟨k, v⟩ := e
    simp only [List.map_cons, List.mem_cons, not_or] at h
    have hb : (a == k) = false := by simpa using h.1
    have hb2 : (k == a) = false := by simpa using fun e : k = a => h.1 e.symm
    have := ih h.2
    simp [List.lookup, hb, hb2, List.filter, this.1]
    simpa using this.2

/-- The keys written in `payloadSizes` are the meta command and the playback,
online and misc enumerators. -/
theorem payloadSizes_keys :
    ∀ k ∈ payloadSizes.map Prod.fst,
      k ∈ CMD_RECEIVE_COMMANDS :: (playbackOpcodes ++ onlineOpcodes ++ miscOpcodes) := by
  decide

/-- C7: the playback, online and misc enumerators are the byte values
0x75-0x77, 0x88-0x8A, 0xB0-0xBE and 0xD0-0xD4, and each has exactly one entry in
`payloadSizes`; the meta command `CMD_RECEIVE_COMMANDS` (0x35) has exactly one
entry, of length 1; the record commands 0x36, 0x38, 0x39, 0x3C and 0x3E have no
entry; and every other value, `CMD_UNKNOWN` (0x00) among them, has no entry, so
that its lookup finds nothing. -/
theorem payloadSizes_closed (op : Nat) :
    ((0x75 ≤ op ∧ op ≤ 0x77 ∨ 0x88 ≤ op ∧ op ≤ 0x8A ∨ 0xB0 ≤ op ∧ op ≤ 0xBE ∨
        0xD0 ≤ op ∧ op ≤ 0xD4) ↔ op ∈ playbackOpcodes ++ onlineOpcodes ++ miscOpcodes) ∧
    (op ∈ playbackOpcodes ++ onlineOpcodes ++ miscOpcodes →
      entryCount op = 1 ∧ (payloadSize op).isSome = true) ∧
    (entryCount CMD_RECEIVE_COMMANDS = 1 ∧ payloadSize CMD_RECEIVE_COMMANDS = some 1) ∧
    (recordOpcodes = [0x36, 0x38, 0x39, 0x3C, 0x3E] ∧
      (op ∈ recordOpcodes → entryCount op = 0 ∧ payloadSize op = none)) ∧
    (op ≠ CMD_RECEIVE_COMMANDS → op ∉ playbackOpcodes ++ onlineOpcodes ++ miscOpcodes →
      entryCount op = 0 ∧ payloadSize op = none) ∧
    (entryCount CMD_UNKNOWN = 0 ∧ payloadSize CMD_UNKNOWN = none) := by
  have hIn : ∀ k ∈ playbackOpcodes ++ onlineOpcodes ++ miscOpcodes,
      entryCount k = 1 ∧ (payloadSize k).isSome = true := by decide
  have hRec : ∀ k ∈ recordOpcodes, entryCount k = 0 ∧ payloadSize k = none := by decide
  refine ⟨?_, hIn op, by decide, ⟨by decide, hRec op⟩, ?_, by decide⟩
  · simp only [playbackOpcodes, onlineOpcodes, miscOpcodes, CMD_PREPARE_REPLAY,
      CMD_READ_FRAME, CMD_GET_LOCATION, CMD_IS_FILE_READY, CMD_IS_STOCK_STEAL,
      CMD_GET_GECKO_CODES, CMD_ONLINE_INPUTS, CMD_CAPTURE_SAVESTATE, CMD_LOAD_SAVESTATE,
      CMD_GET_MATCH_STATE, CMD_FIND_OPPONENT, CMD_SET_MATCH_SELECTIONS, CMD_OPEN_LOGIN,
      CMD_LOGOUT, CMD_UPDATE, CMD_GET_ONLINE_STATUS, CMD_CLEANUP_CONNECTION,
      CMD_SEND_CHAT_MESSAGE, CMD_GET_NEW_SEED, CMD_REPORT_GAME, CMD_SET_MATCH_INFO,
      CMD_LOG_MESSAGE, CMD_FILE_LENGTH, CMD_FILE_LOAD, CMD_GCT_LENGTH, CMD_GCT_LOAD,
      List.cons_append, List.nil_append, List.mem_cons, List.mem_singleton, List.mem_nil_iff,
      or_false]
    omega
  · intro h1 h2
    have hk : op ∉ payloadSizes.map Prod.fst := by
      intro hmem
      have := payloadSizes_keys op hmem
      rw [List.mem_cons] at this
      exact this.elim h1 h2
    have := lookup_eq_none_of_not_mem payloadSizes op hk
    exact ⟨this.2, this.1⟩

/-- C7 at concrete opcodes: an online command is in the table, an unlisted
byte value is not. -/
theorem payloadSizes_closed_witness :
    entryCount CMD_ONLINE_INPUTS = 1 ∧ payloadSize 0x10 = none :=
  ⟨((payloadSizes_closed CMD_ONLINE_INPUTS).2.1 (by decide)).1,
   ((payloadSizes_closed 0x10).2.2.2.2.1 (by decide) (by decide)).2⟩

end CEXISlippi

/-! ## Theorems : savestate store -/

namespace CEXISlippi

/-- A frame is found in the map exactly when it is one of its keys. -/
theorem mapFind_eq_none_iff (frame : Int) (m : SavestateMap) :
    mapFind frame m = none ↔ frame ∉ mapKeys m := by
  induction m with
  | nil => simp [mapFind, mapKeys]
  | cons e rest ih =>
    obtain ⟨k, v⟩ := e
    by_cases hk : k = frame
    · simp [mapFind, mapKeys, hk]
    · have hk2 : ¬ frame = k := fun e => hk e.symm
      simp only [mapFind, hk, if_false, ih]
      simp [mapKeys, hk2]

/-- The keys after an assignment are the old keys and the assigned one. -/
theorem mem_mapKeys_mapAssign (frame k : Int) (ss : SlippiSavestate) (m : SavestateMap) :
    k ∈ mapKeys (mapAssign frame ss m) ↔ k = frame ∨ k ∈ mapKeys m := by
  induction m with
  | nil => simp [mapAssign, mapKeys]
  | cons e rest ih =>
    obtain ⟨k1, v⟩ := e
    simp only [mapAssign]
    split_ifs with h1 h2
    · simp [mapKeys]
    · subst h2
      simp [mapKeys]
    · have ih2 : k ∈ List.map Prod.fst (mapAssign frame ss rest) ↔
          k = frame ∨ k ∈ List.map Prod.fst rest := ih
      simp only [mapKeys, List.map_cons, List.mem_cons, ih2]
      tauto

/-- Assignment keeps the keys in strictly ascending order. -/
theorem sorted_mapAssign (frame : Int) (ss : SlippiSavestate) (m : SavestateMap)
    (h : (mapKeys m).Pairwise (· < ·)) :
    (mapKeys (mapAssign frame ss m)).Pairwise (· < ·) := by
  induction m with
  | nil => simp [mapAssign, mapKeys]
  | cons e rest ih =>
    obtain ⟨k1, v⟩ := e
    have h0 : (k1 :: mapKeys rest).Pairwise (· < ·) := h
    rw [List.pairwise_cons] at h0
    simp only [mapAssign]
    split_ifs with h1 h2
    · show (frame :: k1 :: mapKeys rest).Pairwise (· < ·)
      refine List.Pairwise.cons ?_ h
      intro a ha
      have ha2 : a ∈ k1 :: mapKeys rest := ha
      rcases List.mem_cons.1 ha2 with e | e
      · omega
      · have := h0.1 a e
        omega
    · subst h2
      exact h
    · show (k1 :: mapKeys (mapAssign frame ss rest)).Pairwise (· < ·)
      refine List.Pairwise.cons ?_ (ih h0.2)
      intro a ha
      rcases (mem_mapKeys_mapAssign frame a ss rest).1 ha with e | e
      · omega
      · exact h0.1 a e

/-- Assigning under a new key adds one entry. -/
theorem length_mapAssign_new (frame : Int) (ss : SlippiSavestate) (m : SavestateMap)
    (h : mapFind frame m = none) :
    (mapAssign frame ss m).length = m.length + 1 := by
  induction m with
  | nil => simp [mapAssign]
  | cons e rest ih =>
    obtain ⟨k1, v⟩ := e
    simp only [mapFind] at h
    split_ifs at h with hk
    simp only [mapAssign]
    split_ifs with h1
    · simp
    · simp [ih h]

/-- Assigning under a key of a sorted map keeps the number of entries. -/
theorem length_mapAssign_old (frame : Int) (ss v0 : SlippiSavestate) (m : SavestateMap)
    (hs : (mapKeys m).Pairwise (· < ·)) (h : mapFind frame m = some v0) :
    (mapAssign frame ss m).length = m.length := by
  induction m with
  | nil => simp [mapFind] at h
  | cons e rest ih =>
    obtain ⟨k1, v⟩ := e
    have h0 : (k1 :: mapKeys rest).Pairwise (· < ·) := hs
    rw [List.pairwise_cons] at h0
    simp only [mapFind] at h
    simp only [mapAssign]
    split_ifs at h with hk
    · subst hk
      simp
    · have hmem : frame ∈ mapKeys rest := by
        by_contra hc
        rw [← mapFind_eq_none_iff] at hc
        rw [hc] at h
        cases h
      have hlt := h0.1 frame hmem
      have h1 : ¬ frame < k1 := by omega
      simp [h1, hk, ih h0.2 h]

/-- Erasing a key leaves a sublist of the entries. -/
theorem mapErase_sublist (frame : Int) (m : SavestateMap) :
    List.Sublist (mapErase frame m) m := by
  induction m with
  | nil => simp [mapErase]
  | cons e rest ih =>
    obtain ⟨k1, v⟩ := e
    simp only [mapErase]
    split_ifs with hk
    · exact List.sublist_cons_self _ _
    · exact List.Sublist.cons₂ _ ih

/-- Filling and inserting under a frame that is not active, in a store whose
active set is below capacity, keeps the invariant. -/
theorem storeInv_fillAndInsert (frame : Int) (host : Nat) (st : SavestateStore)
    (hs : (mapKeys st.activeSavestates).Pairwise (· < ·))
    (hl : st.activeSavestates.length < activeCapacity)
    (hf : mapFind frame st.activeSavestates = none) :
    storeInv (fillAndInsert frame host st) ∧
    (fillAndInsert frame host st).activeSavestates.length = st.activeSavestates.length + 1 ∧
    (∀ k, k ∈ mapKeys (fillAndInsert frame host st).activeSavestates ↔
      k = frame ∨ k ∈ mapKeys st.activeSavestates) := by
  unfold fillAndInsert takeIdle
  cases hp : st.availableSavestates with
  | nil =>
    simp only [hl, if_true]
    refine ⟨⟨sorted_mapAssign _ _ _ hs, ?_⟩, length_mapAssign_new _ _ _ hf, fun k =>
      mem_mapKeys_mapAssign _ _ _ _⟩
    show (mapAssign frame _ st.activeSavestates).length ≤ activeCapacity
    rw [length_mapAssign_new _ _ _ hf]
    omega
  | cons ss rest =>
    refine ⟨⟨sorted_mapAssign _ _ _ hs, ?_⟩, length_mapAssign_new _ _ _ hf, fun k =>
      mem_mapKeys_mapAssign _ _ _ _⟩
    show (mapAssign frame _ st.activeSavestates).length ≤ activeCapacity
    rw [length_mapAssign_new _ _ _ hf]
    omega

/-- The operation `capture` keeps the invariant. -/
theorem storeInv_capture (frame : Int) (host : Nat) (st : SavestateStore)
    (h : storeInv st) : storeInv (capture frame host st) := by
  obtain ⟨hs, hl⟩ := h
  unfold capture
  cases hf : mapFind frame st.activeSavestates with
  | some ss =>
    refine ⟨sorted_mapAssign _ _ _ hs, ?_⟩
    show (mapAssign frame _ st.activeSavestates).length ≤ activeCapacity
    rw [length_mapAssign_old _ _ _ _ hs hf]
    exact hl
  | none =>
    simp only
    split_ifs with hfull
    · cases ha : st.activeSavestates with
      | nil =>
        rw [ha] at hfull
        simp [activeCapacity] at hfull
      | cons e rest =>
        obtain ⟨k, ss⟩ := e
        rw [ha] at hs hl hf
        have h0 : (k :: mapKeys rest).Pairwise (· < ·) := hs
        rw [List.pairwise_cons] at h0
        have hf2 : mapFind frame rest = none := by
          simp only [mapFind] at hf
          split_ifs at hf
          exact hf
        have hev : evictOldest st =
            { st with activeSavestates := rest
                      availableSavestates := ss :: st.availableSavestates } := by
          simp [evictOldest, ha]
        rw [hev]
        refine (storeInv_fillAndInsert frame host _ h0.2 ?_ hf2).1
        simp only [List.length_cons] at hl
        show rest.length < activeCapacity
        omega
    · exact (storeInv_fillAndInsert frame host st hs (by omega) hf).1

/-- The operation `release` keeps the invariant. -/
theorem storeInv_release (frame : Int) (st : SavestateStore)
    (h : storeInv st) : storeInv (release frame st) := by
  obtain ⟨hs, hl⟩ := h
  unfold release
  cases hf : mapFind frame st.activeSavestates with
  | none => exact ⟨hs, hl⟩
  | some ss =>
    have hsub := mapErase_sublist frame st.activeSavestates
    refine ⟨List.Pairwise.sublist (List.Sublist.map Prod.fst hsub) hs, ?_⟩
    exact le_trans hsub.length_le hl

/-- Every sequence of operations keeps the invariant. -/
theorem storeInv_runOps (ops : List StoreOp) (st : SavestateStore) (h : storeInv st) :
    storeInv (runOps st ops) := by
  induction ops generalizing st with
  | nil => exact h
  | cons op rest ih =>
    show storeInv (runOps (applyOp st op) rest)
    apply ih
    cases op with
    | capture frame host => exact storeInv_capture frame host st h
    | release frame => exact storeInv_release frame st h

/-- Strictly ascending keys are pairwise distinct. -/
theorem nodup_of_sorted (l : List Int) (h : l.Pairwise (· < ·)) : l.Nodup :=
  List.Pairwise.imp (fun hab => ne_of_lt hab) h

/-- C8: after every sequence of `capture` and `release` operations from the
empty store, the active set holds at most `ROLLBACK_MAX_FRAMES + 1 = 8`
entries and no frame key twice; and a capture of a frame that is not active
into a full active set first moves the entry with the smallest frame key to the
idle pool, then fills and inserts, so that this key is no longer active, the
other keys and the new frame are, and the active set again holds 8 entries. -/
theorem activeSavestates_bounded (ops : List StoreOp) :
    (runOps emptyStore ops).activeSavestates.length ≤ ROLLBACK_MAX_FRAMES + 1 ∧
    ROLLBACK_MAX_FRAMES + 1 = 8 ∧
    (mapKeys (runOps emptyStore ops).activeSavestates).Nodup ∧
    (∀ (frame : Int) (host : Nat),
      mapFind frame (runOps emptyStore ops).activeSavestates = none →
      (runOps emptyStore ops).activeSavestates.length = ROLLBACK_MAX_FRAMES + 1 →
      ∃ k ss rest,
        (runOps emptyStore ops).activeSavestates = (k, ss) :: rest ∧
        (∀ k2 ∈ mapKeys rest, k < k2) ∧
        (evictOldest (runOps emptyStore ops)).activeSavestates = rest ∧
        (evictOldest (runOps emptyStore ops)).availableSavestates =
          ss :: (runOps emptyStore ops).availableSavestates ∧
        capture frame host (runOps emptyStore ops) =
          fillAndInsert frame host (evictOldest (runOps emptyStore ops)) ∧
        (∀ k2, k2 ∈ mapKeys (capture frame host (runOps emptyStore ops)).activeSavestates ↔
          k2 = frame ∨ k2 ∈ mapKeys rest) ∧
        k ∉ mapKeys (capture frame host (runOps emptyStore ops)).activeSavestates ∧
        (capture frame host (runOps emptyStore ops)).activeSavestates.length =
          ROLLBACK_MAX_FRAMES + 1) := by
  have hinv : storeInv (runOps emptyStore ops) :=
    storeInv_runOps ops emptyStore ⟨by simp [emptyStore, mapKeys], by simp [emptyStore]⟩
  generalize runOps emptyStore ops = st at hinv
  obtain ⟨hs, hl⟩ := hinv
  refine ⟨hl, rfl, nodup_of_sorted _ hs, ?_⟩
  intro frame host hf hfull
  cases ha : st.activeSavestates with
  | nil =>
    rw [ha] at hfull
    simp [ROLLBACK_MAX_FRAMES] at hfull
  | cons e rest =>
    obtain ⟨k, ss⟩ := e
    rw [ha] at hs hf hfull
    have h0 : (k :: mapKeys rest).Pairwise (· < ·) := hs
    rw [List.pairwise_cons] at h0
    have hne : ¬ k = frame := by
      intro e
      simp [mapFind, e] at hf
    have hf2 : mapFind frame rest = none := by
      simpa [mapFind, hne] using hf
    have hev : evictOldest st =
        { st with activeSavestates := rest
                  availableSavestates := ss :: st.availableSavestates } := by
      simp [evictOldest, ha]
    have hlen : rest.length = ROLLBACK_MAX_FRAMES := by
      simpa using hfull
    have hcap : capture frame host st = fillAndInsert frame host (evictOldest st) := by
      have hge : activeCapacity ≤ st.activeSavestates.length := by
        rw [ha]
        simp [activeCapacity, hlen]
      simp only [capture, ha, hf]
      rw [ha] at hge
      simp only [hge, if_true]
    have hfi := storeInv_fillAndInsert frame host
      { st with activeSavestates := rest
                availableSavestates := ss :: st.availableSavestates } h0.2
      (by show rest.length < activeCapacity; simp [activeCapacity, hlen]) hf2
    refine ⟨k, ss, rest, rfl, h0.1, by rw [hev], by rw [hev], hcap, ?_, ?_, ?_⟩
    · intro k2
      rw [hcap, hev]
      exact hfi.2.2 k2
    · rw [hcap, hev]
      intro hmem
      rcases (hfi.2.2 k).1 hmem with e | e
      · exact hne e
      · have := h0.1 k e
        omega
    · rw [hcap, hev, hfi.2.1]
      show rest.length + 1 = ROLLBACK_MAX_FRAMES + 1
      rw [hlen]

/-- C8 at a concrete run: eight captures fill the active set, and the capture
of a ninth frame moves the entry of the smallest frame to the pool and leaves
frames 2 to 9 active. -/
theorem activeSavestates_bounded_witness :
    mapFind 9 (runOps emptyStore
      [.capture 1 10, .capture 2 20, .capture 3 30, .capture 4 40, .capture 5 50,
       .capture 6 60, .capture 7 70, .capture 8 80]).activeSavestates = none ∧
    (runOps emptyStore
      [.capture 1 10, .capture 2 20, .capture 3 30, .capture 4 40, .capture 5 50,
       .capture 6 60, .capture 7 70, .capture 8 80]).activeSavestates.length =
      ROLLBACK_MAX_FRAMES + 1 ∧
    mapKeys (capture 9 90 (runOps emptyStore
      [.capture 1 10, .capture 2 20, .capture 3 30, .capture 4 40, .capture 5 50,
       .capture 6 60, .capture 7 70, .capture 8 80])).activeSavestates =
      [2, 3, 4, 5, 6, 7, 8, 9] ∧
    (capture 9 90 (runOps emptyStore
      [.capture 1 10, .capture 2 20, .capture 3 30, .capture 4 40, .capture 5 50,
       .capture 6 60, .capture 7 70, .capture 8 80])).activeSavestates.length =
      ROLLBACK_MAX_FRAMES + 1 := by
  refine ⟨by decide, by decide, by decide, ?_⟩
  obtain ⟨_, _, _, _, _, _, _, _, _, _, h⟩ :=
    (activeSavestates_bounded
      [.capture 1 10, .capture 2 20, .capture 3 30, .capture 4 40, .capture 5 50,
       .capture 6 60, .capture 7 70, .capture 8 80]).2.2.2 9 90 (by decide) (by decide)
  exact h

end CEXISlippi

end Slippi
